import Mathlib

/-!
Shallow embedding of `src/version_diff.py` (NDIS Support Catalogue version
comparison).  Python dicts of items are modelled as association lists from
field name to `Value`; a missing key and a key bound to `None` both normalize
to the empty string, exactly as `dict.get` + `_normalize_for_comparison` do.
Python truthiness of an `item_number` (falsy when `None` or `""`) is modelled
by the empty string.  Python `dict` insertion order is kept by the
association-list index; the `set` iterated by `compare_catalogues` has
unspecified order in Python and is modelled in first-occurrence order — every
property proved below is insensitive to that order.
-/

namespace VersionDiff

/-- A raw field value as it appears in an item record: Python `None`, a
string, or any other value represented by its `str()` form. -/
inductive Value where
  | vnone : Value
  | vstr : String → Value
  | vother : String → Value
deriving DecidableEq

/-- Python `str.strip()`: drop whitespace from both ends, modelled on the
character list of the string. -/
def strStrip (s : String) : String :=
  String.mk
    (((s.data.dropWhile Char.isWhitespace).reverse.dropWhile
        Char.isWhitespace).reverse)

/-- Python `str.lower()`: lowercase every character. -/
def strLower (s : String) : String :=
  String.mk (s.data.map Char.toLower)

/-- Embeds `_normalize_for_comparison` (version_diff.py lines 17-28):
`None` becomes the empty string; strings are stripped and lowercased;
other values are stringified. -/
def _normalize_for_comparison : Value → String
  | Value.vnone => ""
  | Value.vstr s => strLower (strStrip s)
  | Value.vother r => r

/-- The fixed field list of `_compute_field_changes` (lines 47-52). -/
def fields_to_compare : List String :=
  ["support_name", "registration_group", "category", "unit", "claim_type",
   "price_limit_nsw", "price_limit_vic", "price_limit_qld", "price_limit_sa",
   "price_limit_wa", "price_limit_tas", "price_limit_nt", "price_limit_act",
   "effective_from", "effective_to", "notes"]

/-- A catalogue item: its `item_number` (the empty string models a missing or
falsy identifier) and its remaining fields as an association list. -/
structure Item where
  item_number : String
  fields : List (String × Value)
deriving DecidableEq

/-- Association-list lookup modelling Python `dict` access by string key
(first binding wins, as in a dict where keys are unique). -/
def dictGet {β : Type} (k : String) : List (String × β) → Option β
  | [] => none
  | p :: t => if p.1 = k then some p.2 else dictGet k t

/-- Models `item.get(field)`: a missing field reads as `None`. -/
def Item.get (it : Item) (f : String) : Value :=
  (dictGet f it.fields).getD Value.vnone

/-- Embeds `_compute_field_changes` (lines 31-68): the (field, old, new)
triples, over `fields_to_compare` in order, whose normalized values differ.
The Python dict result has one entry per differing field; field order is
the iteration order of `fields_to_compare`. -/
def _compute_field_changes (old_item new_item : Item) :
    List (String × Value × Value) :=
  fields_to_compare.filterMap fun field =>
    let old_val := old_item.get field
    let new_val := new_item.get field
    if _normalize_for_comparison old_val ≠ _normalize_for_comparison new_val
    then some (field, old_val, new_val) else none

/-- A catalogue snapshot.  The collections are `Option`s because
`_index_catalogue` reads them with `catalogue.get(current_items, [])`:
a snapshot missing the key behaves as an empty collection. -/
structure Catalogue where
  current_items : Option (List Item)
  legacy_items : Option (List Item)

/-- One presence tuple of the index: current item-or-None paired with
legacy item-or-None. -/
structure Entry where
  current : Option Item
  legacy : Option Item
deriving DecidableEq

/-- The fresh entry whose current and legacy slots are both `None`. -/
def emptyEntry : Entry := { current := none, legacy := none }

/-- The Python idiom
`if item_num not in index: index[item_num] = fresh; index[item_num][slot] = item`:
if the key exists, rewrite its entry through `f`; otherwise append the key
bound to `f` of the fresh entry (dict insertion order: new keys go last). -/
def updateIndex (index : List (String × Entry)) (item_num : String)
    (f : Entry → Entry) : List (String × Entry) :=
  if (dictGet item_num index).isSome then
    index.map fun p => if p.1 = item_num then (p.1, f p.2) else p
  else
    index ++ [(item_num, f emptyEntry)]

/-- One indexing loop of `_index_catalogue` (lines 87-92 and 95-100): for
each item with a truthy `item_number`, set one slot of its entry. -/
def indexPass (setSlot : Item → Entry → Entry)
    (index : List (String × Entry)) (items : List Item) :
    List (String × Entry) :=
  items.foldl
    (fun index item =>
      if item.item_number ≠ "" then
        updateIndex index item.item_number (setSlot item)
      else index)
    index

/-- Embeds `_index_catalogue` (lines 71-102): index current items first,
then legacy items, skipping falsy item numbers. -/
def _index_catalogue (catalogue : Catalogue) : List (String × Entry) :=
  indexPass (fun item e => { e with legacy := some item })
    (indexPass (fun item e => { e with current := some item }) []
      (catalogue.current_items.getD []))
    (catalogue.legacy_items.getD [])

/-- A record of the added bucket: the item_number and the new current item. -/
structure AddedRec where
  item_number : String
  item : Item
deriving DecidableEq

/-- A record of the removed bucket, carrying `requires_review`. -/
structure RemovedRec where
  item_number : String
  item : Item
  requires_review : Bool
deriving DecidableEq

/-- A record of the moved_to_legacy bucket. -/
structure MovedRec where
  item_number : String
  old_item : Item
  new_legacy_item : Item
deriving DecidableEq

/-- A record of the legacy_removed bucket: the item_number and the old legacy item. -/
structure LegacyRemovedRec where
  item_number : String
  item : Item
deriving DecidableEq

/-- A record of the modified bucket. -/
structure ModifiedRec where
  item_number : String
  old : Item
  new : Item
  changes : List (String × Value × Value)
deriving DecidableEq

/-- A record of the unchanged bucket: the item_number and the new current item. -/
structure UnchangedRec where
  item_number : String
  item : Item
deriving DecidableEq

/-- A record of the anomalies bucket, carrying all four presences and the
human-readable description. -/
structure AnomalyRec where
  item_number : String
  old_current : Option Item
  old_legacy : Option Item
  new_current : Option Item
  new_legacy : Option Item
  description : String
deriving DecidableEq

/-- The description built at lines 202-218 (the separator reproduces the
literal bytes of the source file). -/
def anomalyDescription (old_current old_legacy new_current new_legacy :
    Option Item) : String :=
  let anomaly_desc :=
    (if old_current.isSome then ["OLD Current"] else []) ++
    (if old_legacy.isSome then ["OLD Legacy"] else []) ++
    (if new_current.isSome then ["NEW Current"] else []) ++
    (if new_legacy.isSome then ["NEW Legacy"] else [])
  "Unusual transition: " ++ String.intercalate " â†’ " anomaly_desc

/-- The classification of one item number: exactly one of the seven
categories with its record. -/
inductive Classified where
  | added : AddedRec → Classified
  | removed : RemovedRec → Classified
  | moved_to_legacy : MovedRec → Classified
  | legacy_removed : LegacyRemovedRec → Classified
  | modified : ModifiedRec → Classified
  | unchanged : UnchangedRec → Classified
  | anomaly : AnomalyRec → Classified
deriving DecidableEq

/-- The body of the loop of `compare_catalogues` (lines 136-219): the
`if/elif` decision chain as an ordered match on the four presences.  The
arms encode, in priority order, exactly the conditions of the chain (an indexed
item dict is truthy since it carries a truthy `item_number`):
arm 1 = scenario 1 `new_current and not old_current and not old_legacy`;
arm 2 = scenario 2 `old_current and not new_current and not new_legacy`;
arm 3 = scenario 3 `old_current and new_legacy and not new_current`;
arm 4 = scenario 4 `old_legacy and not new_current and not new_legacy`
(given arms 1-3 failed, `old_current` must be absent there);
arm 5 = scenarios 5-6 `old_current and new_current`;
the final arm is the scenario 7 catch-all. -/
def classify_item (old_index new_index : List (String × Entry))
    (item_num : String) : Classified :=
  let old_entry := (dictGet item_num old_index).getD emptyEntry
  let new_entry := (dictGet item_num new_index).getD emptyEntry
  match old_entry.current, old_entry.legacy, new_entry.current, new_entry.legacy with
  | none, none, some nc, _ =>
      Classified.added { item_number := item_num, item := nc }
  | some oc, _, none, none =>
      Classified.removed
        { item_number := item_num, item := oc, requires_review := true }
  | some oc, _, none, some nl =>
      Classified.moved_to_legacy
        { item_number := item_num, old_item := oc, new_legacy_item := nl }
  | none, some ol, none, none =>
      Classified.legacy_removed { item_number := item_num, item := ol }
  | some oc, _, some nc, _ =>
      let changes := _compute_field_changes oc nc
      if changes ≠ [] then
        Classified.modified
          { item_number := item_num, old := oc, new := nc, changes := changes }
      else
        Classified.unchanged { item_number := item_num, item := nc }
  | oc, ol, nc, nl =>
      Classified.anomaly
        { item_number := item_num, old_current := oc, old_legacy := ol,
          new_current := nc, new_legacy := nl,
          description := anomalyDescription oc ol nc nl }

/-- The seven result buckets of `compare_catalogues`. -/
structure CompareResults where
  added : List AddedRec
  removed : List RemovedRec
  moved_to_legacy : List MovedRec
  legacy_removed : List LegacyRemovedRec
  modified : List ModifiedRec
  unchanged : List UnchangedRec
  anomalies : List AnomalyRec
deriving DecidableEq

/-- The initial `results` dict of empty lists (lines 126-134). -/
def emptyResults : CompareResults :=
  { added := [], removed := [], moved_to_legacy := [], legacy_removed := [],
    modified := [], unchanged := [], anomalies := [] }

/-- Models appending a record to its bucket list. -/
def appendClassified (results : CompareResults) (c : Classified) :
    CompareResults :=
  match c with
  | Classified.added r => { results with added := results.added ++ [r] }
  | Classified.removed r => { results with removed := results.removed ++ [r] }
  | Classified.moved_to_legacy r =>
      { results with moved_to_legacy := results.moved_to_legacy ++ [r] }
  | Classified.legacy_removed r =>
      { results with legacy_removed := results.legacy_removed ++ [r] }
  | Classified.modified r => { results with modified := results.modified ++ [r] }
  | Classified.unchanged r => { results with unchanged := results.unchanged ++ [r] }
  | Classified.anomaly r => { results with anomalies := results.anomalies ++ [r] }

/-- Models `all_item_numbers = set(old_index.keys()) | set(new_index.keys())`
(line 124), modelled in first-occurrence order (Python set iteration order
is unspecified; every property proved here is order-insensitive). -/
def all_item_numbers (old_index new_index : List (String × Entry)) :
    List String :=
  (old_index.map Prod.fst ++ new_index.map Prod.fst).dedup

/-- Embeds `compare_catalogues` (lines 105-221): index both snapshots, then
classify every item number into exactly one bucket. -/
def compare_catalogues (old_cat new_cat : Catalogue) : CompareResults :=
  let old_index := _index_catalogue old_cat
  let new_index := _index_catalogue new_cat
  (all_item_numbers old_index new_index).foldl
    (fun results item_num =>
      appendClassified results (classify_item old_index new_index item_num))
    emptyResults

/-- The summary dict of `get_comparison_summary` (lines 258-286). -/
structure Summary where
  added : Nat
  removed : Nat
  moved_to_legacy : Nat
  legacy_removed : Nat
  modified : Nat
  unchanged : Nat
  anomalies : Nat
  total_items_compared : Nat
deriving DecidableEq

/-- Embeds `get_comparison_summary`: the seven list lengths plus their sum. -/
def get_comparison_summary (comparison_results : CompareResults) : Summary :=
  { added := comparison_results.added.length,
    removed := comparison_results.removed.length,
    moved_to_legacy := comparison_results.moved_to_legacy.length,
    legacy_removed := comparison_results.legacy_removed.length,
    modified := comparison_results.modified.length,
    unchanged := comparison_results.unchanged.length,
    anomalies := comparison_results.anomalies.length,
    total_items_compared :=
      comparison_results.added.length + comparison_results.removed.length +
      comparison_results.moved_to_legacy.length +
      comparison_results.legacy_removed.length +
      comparison_results.modified.length +
      comparison_results.unchanged.length +
      comparison_results.anomalies.length }

/-! ### Lemmas about dictionary lookup -/

theorem dictGet_eq_none_iff {β : Type} (k : String) (l : List (String × β)) :
    dictGet k l = none ↔ k ∉ l.map Prod.fst := by
  induction l with
  | nil => simp [dictGet]
  | cons p t ih =>
    by_cases hp : p.1 = k <;> simp [dictGet, hp, ih, Ne.symm, eq_comm]

theorem isSome_dictGet_iff {β : Type} (k : String) (l : List (String × β)) :
    (dictGet k l).isSome = true ↔ k ∈ l.map Prod.fst := by
  rw [Option.isSome_iff_ne_none, ne_eq, dictGet_eq_none_iff, not_not]

theorem dictGet_append {β : Type} (k : String) (l1 l2 : List (String × β)) :
    dictGet k (l1 ++ l2) =
      match dictGet k l1 with
      | some v => some v
      | none => dictGet k l2 := by
  induction l1 with
  | nil => simp [dictGet]
  | cons p t ih =>
    by_cases hp : p.1 = k <;> simp [dictGet, hp, ih]

theorem dictGet_map_update {β : Type} (k knew : String) (f : β → β)
    (l : List (String × β)) :
    dictGet k (l.map fun p => if p.1 = knew then (p.1, f p.2) else p) =
      if k = knew then (dictGet k l).map f else dictGet k l := by
  induction l with
  | nil => simp [dictGet]
  | cons p t ih =>
    simp only [List.map_cons]
    by_cases hp : p.1 = knew
    · by_cases hk : k = knew
      · subst hk
        simp [dictGet, hp, ih]
      · have hpk : ¬ p.1 = k := fun h => hk (h.symm.trans hp)
        have hnk : ¬ knew = k := fun h => hk h.symm
        simp [dictGet, hp, hk, hpk, hnk, ih]
    · by_cases hk : p.1 = k
      · have hkn : ¬ k = knew := fun h => hp (hk.trans h)
        simp [dictGet, hp, hk, hkn]
      · simp [dictGet, hp, hk, ih]

/-! ### Lemmas about the index -/

theorem dictGet_updateIndex (index : List (String × Entry)) (k knew : String)
    (f : Entry → Entry) :
    dictGet k (updateIndex index knew f) =
      if k = knew then some (f ((dictGet knew index).getD emptyEntry))
      else dictGet k index := by
  unfold updateIndex
  split
  · rename_i hsome
    rw [dictGet_map_update]
    by_cases hk : k = knew
    · subst hk
      obtain ⟨e, he⟩ := Option.isSome_iff_exists.mp hsome
      simp [he]
    · simp [hk]
  · rename_i hnone
    have hn : dictGet knew index = none :=
      Option.not_isSome_iff_eq_none.mp (by simp [hnone])
    rw [dictGet_append]
    by_cases hk : k = knew
    · subst hk
      simp [hn, dictGet]
    · cases hg : dictGet k index <;> simp [dictGet, Ne.symm hk, hk, hg]

theorem keys_updateIndex (index : List (String × Entry)) (knew : String)
    (f : Entry → Entry) :
    (updateIndex index knew f).map Prod.fst =
      if (dictGet knew index).isSome then index.map Prod.fst
      else index.map Prod.fst ++ [knew] := by
  unfold updateIndex
  split <;> rename_i h
  · rw [List.map_map]
    apply List.map_congr_left
    intro p _
    by_cases hp : p.1 = knew <;> simp [hp]
  · rw [Bool.not_eq_true] at h
    simp [h]

theorem mem_keys_updateIndex (index : List (String × Entry)) (k knew : String)
    (f : Entry → Entry) :
    k ∈ (updateIndex index knew f).map Prod.fst ↔
      k ∈ index.map Prod.fst ∨ k = knew := by
  rw [keys_updateIndex]
  split <;> rename_i h
  · constructor
    · exact Or.inl
    · rintro (hm | rfl)
      · exact hm
      · exact (isSome_dictGet_iff k index).mp h
  · simp

theorem keysNodup_updateIndex (index : List (String × Entry)) (knew : String)
    (f : Entry → Entry) (h : (index.map Prod.fst).Nodup) :
    ((updateIndex index knew f).map Prod.fst).Nodup := by
  rw [keys_updateIndex]
  split <;> rename_i hs
  · exact h
  · have hn : dictGet knew index = none :=
      Option.not_isSome_iff_eq_none.mp (by simp_all)
    rw [dictGet_eq_none_iff] at hn
    simpa [List.nodup_append, h] using hn

theorem indexPass_append (setSlot : Item → Entry → Entry)
    (index : List (String × Entry)) (t : List Item) (a : Item) :
    indexPass setSlot index (t ++ [a]) =
      if a.item_number ≠ "" then
        updateIndex (indexPass setSlot index t) a.item_number (setSlot a)
      else indexPass setSlot index t := by
  unfold indexPass
  rw [List.foldl_append]
  rfl

theorem indexPass_cons (setSlot : Item → Entry → Entry)
    (index : List (String × Entry)) (a : Item) (t : List Item) :
    indexPass setSlot index (a :: t) =
      indexPass setSlot
        (if a.item_number ≠ "" then updateIndex index a.item_number (setSlot a)
         else index) t := rfl

/-- Looking a key up after one indexing pass: the last item of the pass
bearing that key wins the slot; keys untouched by the pass read as before. -/
theorem dictGet_indexPass (setSlot : Item → Entry → Entry)
    (hcollapse : ∀ a b e, setSlot a (setSlot b e) = setSlot a e)
    (index : List (String × Entry)) (items : List Item) (k : String)
    (hk : k ≠ "") :
    dictGet k (indexPass setSlot index items) =
      match (items.filter fun it => it.item_number = k).getLast? with
      | some it => some (setSlot it ((dictGet k index).getD emptyEntry))
      | none => dictGet k index := by
  induction items using List.reverseRecOn with
  | nil => simp [indexPass]
  | append_singleton t a ih =>
    rw [indexPass_append]
    by_cases ha : a.item_number = k
    · rw [if_pos (by rw [ha]; exact hk), dictGet_updateIndex, ha, if_pos rfl, ih]
      cases hlast : (t.filter fun it => it.item_number = k).getLast? <;>
        simp [List.filter_append, ha, hlast, List.getLast?_concat, hcollapse]
    · by_cases htr : a.item_number ≠ ""
      · rw [if_pos htr, dictGet_updateIndex, if_neg (fun h => ha h.symm), ih]
        simp [List.filter_append, ha]
      · rw [if_neg htr, ih]
        simp [List.filter_append, ha]

theorem mem_keys_indexPass (setSlot : Item → Entry → Entry)
    (index : List (String × Entry)) (items : List Item) (k : String) :
    k ∈ (indexPass setSlot index items).map Prod.fst ↔
      k ∈ index.map Prod.fst ∨ (k ≠ "" ∧ ∃ it ∈ items, it.item_number = k) := by
  induction items generalizing index with
  | nil => simp [indexPass]
  | cons a t ih =>
    rw [indexPass_cons, ih]
    by_cases ha : a.item_number = ""
    · simp only [ha, ne_eq, not_true_eq_false, if_false]
      constructor
      · rintro (hm | ⟨hne, it, hmem, hit⟩)
        · exact Or.inl hm
        · exact Or.inr ⟨hne, it, List.mem_cons_of_mem a hmem, hit⟩
      · rintro (hm | ⟨hne, it, hmem, hit⟩)
        · exact Or.inl hm
        · rcases List.mem_cons.mp hmem with rfl | hmem
          · exact absurd (hit.symm.trans ha) hne
          · exact Or.inr ⟨hne, it, hmem, hit⟩
    · simp only [ha, ne_eq, not_false_eq_true, if_true, mem_keys_updateIndex]
      constructor
      · rintro ((hm | rfl) | ⟨hne, it, hmem, hit⟩)
        · exact Or.inl hm
        · exact Or.inr ⟨ha, a, List.mem_cons_self a t, rfl⟩
        · exact Or.inr ⟨hne, it, List.mem_cons_of_mem a hmem, hit⟩
      · rintro (hm | ⟨hne, it, hmem, hit⟩)
        · exact Or.inl (Or.inl hm)
        · rcases List.mem_cons.mp hmem with rfl | hmem
          · exact Or.inl (Or.inr hit.symm)
          · exact Or.inr ⟨hne, it, hmem, hit⟩

theorem keysNodup_indexPass (setSlot : Item → Entry → Entry)
    (index : List (String × Entry)) (items : List Item)
    (h : (index.map Prod.fst).Nodup) :
    ((indexPass setSlot index items).map Prod.fst).Nodup := by
  induction items generalizing index with
  | nil => exact h
  | cons a t ih =>
    rw [indexPass_cons]
    apply ih
    by_cases ha : a.item_number ≠ ""
    · rw [if_pos ha]
      exact keysNodup_updateIndex _ _ _ h
    · rw [if_neg ha]
      exact h

/-- The index keys are exactly the truthy item numbers occurring anywhere in
the snapshot. -/
theorem mem_keys_index_catalogue (cat : Catalogue) (k : String) :
    k ∈ (_index_catalogue cat).map Prod.fst ↔
      k ≠ "" ∧ ((∃ it ∈ cat.current_items.getD [], it.item_number = k) ∨
                (∃ it ∈ cat.legacy_items.getD [], it.item_number = k)) := by
  unfold _index_catalogue
  rw [mem_keys_indexPass, mem_keys_indexPass]
  simp only [List.map_nil, List.not_mem_nil, false_or]
  constructor
  · rintro (⟨hne, hcur⟩ | ⟨hne, hleg⟩)
    · exact ⟨hne, Or.inl hcur⟩
    · exact ⟨hne, Or.inr hleg⟩
  · rintro ⟨hne, hcur | hleg⟩
    · exact Or.inl ⟨hne, hcur⟩
    · exact Or.inr ⟨hne, hleg⟩

theorem keysNodup_index_catalogue (cat : Catalogue) :
    ((_index_catalogue cat).map Prod.fst).Nodup := by
  unfold _index_catalogue
  exact keysNodup_indexPass _ _ _ (keysNodup_indexPass _ _ _ (by simp))

/-- The core index characterization (the interesting part of C7): the
current slot holds the last current item bearing the key, the legacy slot
the last legacy item, and the key is absent iff neither exists. -/
theorem dictGet_index_catalogue (cat : Catalogue) (k : String) (hk : k ≠ "") :
    dictGet k (_index_catalogue cat) =
      if (((cat.current_items.getD []).filter fun it =>
              it.item_number = k).getLast? = none ∧
          ((cat.legacy_items.getD []).filter fun it =>
              it.item_number = k).getLast? = none)
      then none
      else some
        { current := ((cat.current_items.getD []).filter fun it =>
              it.item_number = k).getLast?,
          legacy := ((cat.legacy_items.getD []).filter fun it =>
              it.item_number = k).getLast? } := by
  unfold _index_catalogue
  rw [dictGet_indexPass (fun item e => { e with legacy := some item })
        (fun a b e => rfl) _ _ _ hk,
      dictGet_indexPass (fun item e => { e with current := some item })
        (fun a b e => rfl) _ _ _ hk]
  cases hc : ((cat.current_items.getD []).filter fun it =>
      it.item_number = k).getLast? <;>
    cases hl : ((cat.legacy_items.getD []).filter fun it =>
        it.item_number = k).getLast? <;>
      simp [dictGet, emptyEntry]

/-! ### The loop of compare_catalogues as seven filterMaps -/

/-- The added-bucket projection of a classification. -/
def addedOf : Classified → Option AddedRec
  | Classified.added r => some r
  | _ => none

/-- The removed-bucket projection of a classification. -/
def removedOf : Classified → Option RemovedRec
  | Classified.removed r => some r
  | _ => none

/-- The moved-to-legacy-bucket projection of a classification. -/
def movedOf : Classified → Option MovedRec
  | Classified.moved_to_legacy r => some r
  | _ => none

/-- The legacy-removed-bucket projection of a classification. -/
def legacyRemovedOf : Classified → Option LegacyRemovedRec
  | Classified.legacy_removed r => some r
  | _ => none

/-- The modified-bucket projection of a classification. -/
def modifiedOf : Classified → Option ModifiedRec
  | Classified.modified r => some r
  | _ => none

/-- The unchanged-bucket projection of a classification. -/
def unchangedOf : Classified → Option UnchangedRec
  | Classified.unchanged r => some r
  | _ => none

/-- The anomaly-bucket projection of a classification. -/
def anomalyOf : Classified → Option AnomalyRec
  | Classified.anomaly r => some r
  | _ => none

/-- The item number carried by the record of a classification. -/
def Classified.itemNumber : Classified → String
  | Classified.added r => r.item_number
  | Classified.removed r => r.item_number
  | Classified.moved_to_legacy r => r.item_number
  | Classified.legacy_removed r => r.item_number
  | Classified.modified r => r.item_number
  | Classified.unchanged r => r.item_number
  | Classified.anomaly r => r.item_number

/-- The bucket index (0 = added .. 6 = anomalies) of a classification. -/
def Classified.tag : Classified → Nat
  | Classified.added _ => 0
  | Classified.removed _ => 1
  | Classified.moved_to_legacy _ => 2
  | Classified.legacy_removed _ => 3
  | Classified.modified _ => 4
  | Classified.unchanged _ => 5
  | Classified.anomaly _ => 6

/-- Every record emitted for an item number carries that item number. -/
theorem classify_item_itemNumber (oi ni : List (String × Entry)) (k : String) :
    (classify_item oi ni k).itemNumber = k := by
  simp only [classify_item]
  split <;> (try split) <;> rfl

/-- Appending classifications one by one fills each bucket with the
projection of the classification stream: the loop of `compare_catalogues`
is seven filterMaps. -/
theorem foldl_appendClassified (f : String → Classified) (l : List String)
    (acc : CompareResults) :
    l.foldl (fun results k => appendClassified results (f k)) acc =
      { added := acc.added ++ l.filterMap fun k => addedOf (f k),
        removed := acc.removed ++ l.filterMap fun k => removedOf (f k),
        moved_to_legacy :=
          acc.moved_to_legacy ++ l.filterMap fun k => movedOf (f k),
        legacy_removed :=
          acc.legacy_removed ++ l.filterMap fun k => legacyRemovedOf (f k),
        modified := acc.modified ++ l.filterMap fun k => modifiedOf (f k),
        unchanged := acc.unchanged ++ l.filterMap fun k => unchangedOf (f k),
        anomalies := acc.anomalies ++ l.filterMap fun k => anomalyOf (f k) } := by
  induction l generalizing acc with
  | nil => simp
  | cons a t ih =>
    rw [List.foldl_cons, ih]
    cases hfa : f a <;>
      simp [appendClassified, hfa, addedOf, removedOf, movedOf,
        legacyRemovedOf, modifiedOf, unchangedOf, anomalyOf,
        List.filterMap_cons]

/-- The function `compare_catalogues` in closed form: each bucket is the filterMap of the
per-item-number classification over the union of the key sets. -/
theorem compare_catalogues_eq (old_cat new_cat : Catalogue) :
    compare_catalogues old_cat new_cat =
      { added := (all_item_numbers (_index_catalogue old_cat)
            (_index_catalogue new_cat)).filterMap fun k =>
              addedOf (classify_item (_index_catalogue old_cat)
                (_index_catalogue new_cat) k),
        removed := (all_item_numbers (_index_catalogue old_cat)
            (_index_catalogue new_cat)).filterMap fun k =>
              removedOf (classify_item (_index_catalogue old_cat)
                (_index_catalogue new_cat) k),
        moved_to_legacy := (all_item_numbers (_index_catalogue old_cat)
            (_index_catalogue new_cat)).filterMap fun k =>
              movedOf (classify_item (_index_catalogue old_cat)
                (_index_catalogue new_cat) k),
        legacy_removed := (all_item_numbers (_index_catalogue old_cat)
            (_index_catalogue new_cat)).filterMap fun k =>
              legacyRemovedOf (classify_item (_index_catalogue old_cat)
                (_index_catalogue new_cat) k),
        modified := (all_item_numbers (_index_catalogue old_cat)
            (_index_catalogue new_cat)).filterMap fun k =>
              modifiedOf (classify_item (_index_catalogue old_cat)
                (_index_catalogue new_cat) k),
        unchanged := (all_item_numbers (_index_catalogue old_cat)
            (_index_catalogue new_cat)).filterMap fun k =>
              unchangedOf (classify_item (_index_catalogue old_cat)
                (_index_catalogue new_cat) k),
        anomalies := (all_item_numbers (_index_catalogue old_cat)
            (_index_catalogue new_cat)).filterMap fun k =>
              anomalyOf (classify_item (_index_catalogue old_cat)
                (_index_catalogue new_cat) k) } := by
  unfold compare_catalogues
  rw [foldl_appendClassified]
  simp [emptyResults]

theorem filterMap_map_eq_filter {β : Type} (l : List String)
    (g : String → Option β) (pick : β → String) (p : String → Bool)
    (H : ∀ k, (g k).map pick = if p k then some k else none) :
    (l.filterMap g).map pick = l.filter p := by
  induction l with
  | nil => rfl
  | cons a t ih =>
    rw [List.filterMap_cons, List.filter_cons]
    have ha := H a
    cases hg : g a <;> rw [hg] at ha <;> by_cases hp : p a <;>
      simp [hp] at ha ⊢ <;> simp [ha, ih]

theorem added_item_numbers (old_cat new_cat : Catalogue) :
    (compare_catalogues old_cat new_cat).added.map AddedRec.item_number =
      (all_item_numbers (_index_catalogue old_cat)
        (_index_catalogue new_cat)).filter
          fun k => (classify_item (_index_catalogue old_cat)
            (_index_catalogue new_cat) k).tag = 0 := by
  rw [compare_catalogues_eq]
  apply filterMap_map_eq_filter
  intro k
  have h := classify_item_itemNumber (_index_catalogue old_cat)
    (_index_catalogue new_cat) k
  cases hc : classify_item (_index_catalogue old_cat)
      (_index_catalogue new_cat) k <;>
    rw [hc] at h <;> simp_all [addedOf, Classified.tag, Classified.itemNumber]

theorem removed_item_numbers (old_cat new_cat : Catalogue) :
    (compare_catalogues old_cat new_cat).removed.map RemovedRec.item_number =
      (all_item_numbers (_index_catalogue old_cat)
        (_index_catalogue new_cat)).filter
          fun k => (classify_item (_index_catalogue old_cat)
            (_index_catalogue new_cat) k).tag = 1 := by
  rw [compare_catalogues_eq]
  apply filterMap_map_eq_filter
  intro k
  have h := classify_item_itemNumber (_index_catalogue old_cat)
    (_index_catalogue new_cat) k
  cases hc : classify_item (_index_catalogue old_cat)
      (_index_catalogue new_cat) k <;>
    rw [hc] at h <;> simp_all [removedOf, Classified.tag, Classified.itemNumber]

theorem moved_item_numbers (old_cat new_cat : Catalogue) :
    (compare_catalogues old_cat new_cat).moved_to_legacy.map
        MovedRec.item_number =
      (all_item_numbers (_index_catalogue old_cat)
        (_index_catalogue new_cat)).filter
          fun k => (classify_item (_index_catalogue old_cat)
            (_index_catalogue new_cat) k).tag = 2 := by
  rw [compare_catalogues_eq]
  apply filterMap_map_eq_filter
  intro k
  have h := classify_item_itemNumber (_index_catalogue old_cat)
    (_index_catalogue new_cat) k
  cases hc : classify_item (_index_catalogue old_cat)
      (_index_catalogue new_cat) k <;>
    rw [hc] at h <;> simp_all [movedOf, Classified.tag, Classified.itemNumber]

theorem legacy_removed_item_numbers (old_cat new_cat : Catalogue) :
    (compare_catalogues old_cat new_cat).legacy_removed.map
        LegacyRemovedRec.item_number =
      (all_item_numbers (_index_catalogue old_cat)
        (_index_catalogue new_cat)).filter
          fun k => (classify_item (_index_catalogue old_cat)
            (_index_catalogue new_cat) k).tag = 3 := by
  rw [compare_catalogues_eq]
  apply filterMap_map_eq_filter
  intro k
  have h := classify_item_itemNumber (_index_catalogue old_cat)
    (_index_catalogue new_cat) k
  cases hc : classify_item (_index_catalogue old_cat)
      (_index_catalogue new_cat) k <;>
    rw [hc] at h <;>
      simp_all [legacyRemovedOf, Classified.tag, Classified.itemNumber]

theorem modified_item_numbers (old_cat new_cat : Catalogue) :
    (compare_catalogues old_cat new_cat).modified.map ModifiedRec.item_number =
      (all_item_numbers (_index_catalogue old_cat)
        (_index_catalogue new_cat)).filter
          fun k => (classify_item (_index_catalogue old_cat)
            (_index_catalogue new_cat) k).tag = 4 := by
  rw [compare_catalogues_eq]
  apply filterMap_map_eq_filter
  intro k
  have h := classify_item_itemNumber (_index_catalogue old_cat)
    (_index_catalogue new_cat) k
  cases hc : classify_item (_index_catalogue old_cat)
      (_index_catalogue new_cat) k <;>
    rw [hc] at h <;>
      simp_all [modifiedOf, Classified.tag, Classified.itemNumber]

theorem unchanged_item_numbers (old_cat new_cat : Catalogue) :
    (compare_catalogues old_cat new_cat).unchanged.map
        UnchangedRec.item_number =
      (all_item_numbers (_index_catalogue old_cat)
        (_index_catalogue new_cat)).filter
          fun k => (classify_item (_index_catalogue old_cat)
            (_index_catalogue new_cat) k).tag = 5 := by
  rw [compare_catalogues_eq]
  apply filterMap_map_eq_filter
  intro k
  have h := classify_item_itemNumber (_index_catalogue old_cat)
    (_index_catalogue new_cat) k
  cases hc : classify_item (_index_catalogue old_cat)
      (_index_catalogue new_cat) k <;>
    rw [hc] at h <;>
      simp_all [unchangedOf, Classified.tag, Classified.itemNumber]

theorem anomaly_item_numbers (old_cat new_cat : Catalogue) :
    (compare_catalogues old_cat new_cat).anomalies.map AnomalyRec.item_number =
      (all_item_numbers (_index_catalogue old_cat)
        (_index_catalogue new_cat)).filter
          fun k => (classify_item (_index_catalogue old_cat)
            (_index_catalogue new_cat) k).tag = 6 := by
  rw [compare_catalogues_eq]
  apply filterMap_map_eq_filter
  intro k
  have h := classify_item_itemNumber (_index_catalogue old_cat)
    (_index_catalogue new_cat) k
  cases hc : classify_item (_index_catalogue old_cat)
      (_index_catalogue new_cat) k <;>
    rw [hc] at h <;>
      simp_all [anomalyOf, Classified.tag, Classified.itemNumber]

/-- The item-number lists of the seven output buckets, in source order. -/
def bucket_item_numbers (r : CompareResults) : List (List String) :=
  [r.added.map AddedRec.item_number,
   r.removed.map RemovedRec.item_number,
   r.moved_to_legacy.map MovedRec.item_number,
   r.legacy_removed.map LegacyRemovedRec.item_number,
   r.modified.map ModifiedRec.item_number,
   r.unchanged.map UnchangedRec.item_number,
   r.anomalies.map AnomalyRec.item_number]

theorem classify_item_tag_lt (oi ni : List (String × Entry)) (k : String) :
    (classify_item oi ni k).tag < 7 := by
  cases classify_item oi ni k <;> simp [Classified.tag]

theorem bucket_item_numbers_eq (old_cat new_cat : Catalogue) :
    bucket_item_numbers (compare_catalogues old_cat new_cat) =
      (List.range 7).map fun i =>
        (all_item_numbers (_index_catalogue old_cat)
          (_index_catalogue new_cat)).filter
            fun k => (classify_item (_index_catalogue old_cat)
              (_index_catalogue new_cat) k).tag = i := by
  have hr : List.range 7 = [0, 1, 2, 3, 4, 5, 6] := rfl
  rw [hr]
  simp only [List.map_cons, List.map_nil, bucket_item_numbers]
  rw [added_item_numbers, removed_item_numbers, moved_item_numbers,
    legacy_removed_item_numbers, modified_item_numbers,
    unchanged_item_numbers, anomaly_item_numbers]

/-- C1: for every pair of snapshots, every item_number occurring in at least
one of the two indices is placed in exactly one of the seven output lists of
`compare_catalogues`: the item_number sets of the lists are pairwise
disjoint, their union equals the union of the key sets of the two indices,
and no
item_number occurs twice in any list. -/
theorem c1_partition (old_cat new_cat : Catalogue) :
    List.Pairwise (fun l1 l2 => ∀ k, k ∈ l1 → k ∉ l2)
      (bucket_item_numbers (compare_catalogues old_cat new_cat)) ∧
    (∀ k : String,
      (∃ l ∈ bucket_item_numbers (compare_catalogues old_cat new_cat),
          k ∈ l) ↔
        (k ∈ (_index_catalogue old_cat).map Prod.fst ∨
         k ∈ (_index_catalogue new_cat).map Prod.fst)) ∧
    (∀ l ∈ bucket_item_numbers (compare_catalogues old_cat new_cat),
      l.Nodup) := by
  have hall : (all_item_numbers (_index_catalogue old_cat)
      (_index_catalogue new_cat)).Nodup := List.nodup_dedup _
  rw [bucket_item_numbers_eq]
  refine ⟨?_, ?_, ?_⟩
  · rw [List.pairwise_map]
    refine (List.pairwise_lt_range 7).imp ?_
    intro i j hij k hki hkj
    simp only [List.mem_filter, decide_eq_true_eq] at hki hkj
    omega
  · intro k
    constructor
    · rintro ⟨l, hl, hkl⟩
      rw [List.mem_map] at hl
      obtain ⟨i, _, rfl⟩ := hl
      rw [List.mem_filter] at hkl
      have hmem := hkl.1
      unfold all_item_numbers at hmem
      rw [List.mem_dedup, List.mem_append] at hmem
      exact hmem
    · intro hk
      have hkall : k ∈ all_item_numbers (_index_catalogue old_cat)
          (_index_catalogue new_cat) := by
        unfold all_item_numbers
        rw [List.mem_dedup, List.mem_append]
        exact hk
      refine ⟨(all_item_numbers (_index_catalogue old_cat)
          (_index_catalogue new_cat)).filter
            (fun x => (classify_item (_index_catalogue old_cat)
              (_index_catalogue new_cat) x).tag =
                (classify_item (_index_catalogue old_cat)
                  (_index_catalogue new_cat) k).tag), ?_, ?_⟩
      · exact List.mem_map.mpr
          ⟨(classify_item (_index_catalogue old_cat)
              (_index_catalogue new_cat) k).tag,
           List.mem_range.mpr (classify_item_tag_lt _ _ k), rfl⟩
      · rw [List.mem_filter]
        exact ⟨hkall, by simp⟩
  · intro l hl
    rw [List.mem_map] at hl
    obtain ⟨i, _, rfl⟩ := hl
    exact hall.filter _

/-! ### Classification under given presence patterns -/

theorem classify_item_eq_added (oi ni : List (String × Entry)) (k : String)
    (nc : Item)
    (h1 : ((dictGet k ni).getD emptyEntry).current = some nc)
    (h2 : ((dictGet k oi).getD emptyEntry).current = none)
    (h3 : ((dictGet k oi).getD emptyEntry).legacy = none) :
    classify_item oi ni k = Classified.added { item_number := k, item := nc } := by
  cases hnl : ((dictGet k ni).getD emptyEntry).legacy <;>
    simp [classify_item, h1, h2, h3, hnl]

theorem classify_item_eq_removed (oi ni : List (String × Entry)) (k : String)
    (oc : Item)
    (h1 : ((dictGet k oi).getD emptyEntry).current = some oc)
    (h2 : ((dictGet k ni).getD emptyEntry).current = none)
    (h3 : ((dictGet k ni).getD emptyEntry).legacy = none) :
    classify_item oi ni k =
      Classified.removed
        { item_number := k, item := oc, requires_review := true } := by
  cases hol : ((dictGet k oi).getD emptyEntry).legacy <;>
    simp [classify_item, h1, h2, h3, hol]

theorem classify_item_eq_moved (oi ni : List (String × Entry)) (k : String)
    (oc nl : Item)
    (h1 : ((dictGet k oi).getD emptyEntry).current = some oc)
    (h2 : ((dictGet k ni).getD emptyEntry).legacy = some nl)
    (h3 : ((dictGet k ni).getD emptyEntry).current = none) :
    classify_item oi ni k =
      Classified.moved_to_legacy
        { item_number := k, old_item := oc, new_legacy_item := nl } := by
  cases hol : ((dictGet k oi).getD emptyEntry).legacy <;>
    simp [classify_item, h1, h2, h3, hol]

theorem classify_item_eq_legacy_removed (oi ni : List (String × Entry))
    (k : String) (ol : Item)
    (h1 : ((dictGet k oi).getD emptyEntry).legacy = some ol)
    (h2 : ((dictGet k oi).getD emptyEntry).current = none)
    (h3 : ((dictGet k ni).getD emptyEntry).current = none)
    (h4 : ((dictGet k ni).getD emptyEntry).legacy = none) :
    classify_item oi ni k =
      Classified.legacy_removed { item_number := k, item := ol } := by
  simp [classify_item, h1, h2, h3, h4]

theorem classify_item_eq_mod_unch (oi ni : List (String × Entry)) (k : String)
    (oc nc : Item)
    (h1 : ((dictGet k oi).getD emptyEntry).current = some oc)
    (h2 : ((dictGet k ni).getD emptyEntry).current = some nc) :
    classify_item oi ni k =
      if _compute_field_changes oc nc ≠ [] then
        Classified.modified
          { item_number := k, old := oc, new := nc,
            changes := _compute_field_changes oc nc }
      else Classified.unchanged { item_number := k, item := nc } := by
  cases hol : ((dictGet k oi).getD emptyEntry).legacy <;>
    cases hnl : ((dictGet k ni).getD emptyEntry).legacy <;>
      simp [classify_item, h1, h2, hol, hnl]

/-! ### Membership helpers -/

theorem dictGet_ne_none_of_current (idx : List (String × Entry)) (k : String)
    (it : Item)
    (h : ((dictGet k idx).getD emptyEntry).current = some it) :
    dictGet k idx ≠ none := by
  intro hn
  rw [hn] at h
  simp [emptyEntry] at h

theorem dictGet_ne_none_of_legacy (idx : List (String × Entry)) (k : String)
    (it : Item)
    (h : ((dictGet k idx).getD emptyEntry).legacy = some it) :
    dictGet k idx ≠ none := by
  intro hn
  rw [hn] at h
  simp [emptyEntry] at h

theorem mem_all_item_numbers_left (oi ni : List (String × Entry)) (k : String)
    (h : dictGet k oi ≠ none) : k ∈ all_item_numbers oi ni := by
  unfold all_item_numbers
  rw [List.mem_dedup, List.mem_append]
  exact Or.inl (by_contra fun hmem => h ((dictGet_eq_none_iff k oi).mpr hmem))

theorem mem_all_item_numbers_right (oi ni : List (String × Entry)) (k : String)
    (h : dictGet k ni ≠ none) : k ∈ all_item_numbers oi ni := by
  unfold all_item_numbers
  rw [List.mem_dedup, List.mem_append]
  exact Or.inr (by_contra fun hmem => h ((dictGet_eq_none_iff k ni).mpr hmem))

/-- Shared core of the Added cases of C3/C4/C6-style claims. -/
theorem mem_added_of_presence (old_cat new_cat : Catalogue) (k : String)
    (nc : Item)
    (h1 : ((dictGet k (_index_catalogue new_cat)).getD emptyEntry).current =
      some nc)
    (h2 : ((dictGet k (_index_catalogue old_cat)).getD emptyEntry).current =
      none)
    (h3 : ((dictGet k (_index_catalogue old_cat)).getD emptyEntry).legacy =
      none) :
    ({ item_number := k, item := nc } : AddedRec) ∈
      (compare_catalogues old_cat new_cat).added := by
  rw [compare_catalogues_eq]
  exact List.mem_filterMap.mpr
    ⟨k,
     mem_all_item_numbers_right _ _ k (dictGet_ne_none_of_current _ k nc h1),
     by rw [classify_item_eq_added _ _ k nc h1 h2 h3]; rfl⟩

/-- Shared core of the Removed cases of C3/C6. -/
theorem mem_removed_of_presence (old_cat new_cat : Catalogue) (k : String)
    (oc : Item)
    (h1 : ((dictGet k (_index_catalogue old_cat)).getD emptyEntry).current =
      some oc)
    (h2 : ((dictGet k (_index_catalogue new_cat)).getD emptyEntry).current =
      none)
    (h3 : ((dictGet k (_index_catalogue new_cat)).getD emptyEntry).legacy =
      none) :
    ({ item_number := k, item := oc, requires_review := true } : RemovedRec) ∈
      (compare_catalogues old_cat new_cat).removed := by
  rw [compare_catalogues_eq]
  exact List.mem_filterMap.mpr
    ⟨k,
     mem_all_item_numbers_left _ _ k (dictGet_ne_none_of_current _ k oc h1),
     by rw [classify_item_eq_removed _ _ k oc h1 h2 h3]; rfl⟩

theorem exists_mem_filterMap_iff {β : Type} (l : List String)
    (f : String → Classified) (g : Classified → Option β)
    (pick : β → String)
    (hf : ∀ k, (f k).itemNumber = k)
    (hpick : ∀ c b, g c = some b → pick b = c.itemNumber) (k : String) :
    (∃ b ∈ l.filterMap fun x => g (f x), pick b = k) ↔
      (k ∈ l ∧ ∃ b, g (f k) = some b) := by
  constructor
  · rintro ⟨b, hb, hbk⟩
    rw [List.mem_filterMap] at hb
    obtain ⟨x, hx, hgb⟩ := hb
    have hpx : pick b = x := by rw [hpick _ _ hgb, hf x]
    have hxk : x = k := hpx.symm.trans hbk
    subst hxk
    exact ⟨hx, b, hgb⟩
  · rintro ⟨hkl, b, hgb⟩
    exact ⟨b, List.mem_filterMap.mpr ⟨k, hkl, hgb⟩,
      by rw [hpick _ _ hgb, hf]⟩

theorem modifiedOf_pick (c : Classified) (b : ModifiedRec)
    (h : modifiedOf c = some b) : b.item_number = c.itemNumber := by
  cases c <;> simp_all [modifiedOf, Classified.itemNumber]

theorem unchangedOf_pick (c : Classified) (b : UnchangedRec)
    (h : unchangedOf c = some b) : b.item_number = c.itemNumber := by
  cases c <;> simp_all [unchangedOf, Classified.itemNumber]

/-! ### Concrete example data used by the witnesses -/

/-- Example: a current item `A1` named `Chair`. -/
def exChair : Item :=
  { item_number := "A1", fields := [("support_name", Value.vstr "Chair")] }

/-- Example: the same item with only whitespace/case drift in its name. -/
def exChairPadded : Item :=
  { item_number := "A1", fields := [("support_name", Value.vstr " chair ")] }

/-- Example: a current item `B2`. -/
def exB2 : Item :=
  { item_number := "B2", fields := [("support_name", Value.vstr "Bed")] }

/-- Example: a current/legacy item `C3`. -/
def exC3 : Item :=
  { item_number := "C3", fields := [("support_name", Value.vstr "Cane")] }

/-- Example catalogue: current `A1` (Chair). -/
def exChairCat : Catalogue :=
  { current_items := some [exChair], legacy_items := some [] }

/-- Example catalogue: current `A1` (padded Chair). -/
def exChairPaddedCat : Catalogue :=
  { current_items := some [exChairPadded], legacy_items := some [] }

/-- Example catalogue: current `B2`. -/
def exOldB2 : Catalogue :=
  { current_items := some [exB2], legacy_items := some [] }

/-- Example catalogue: current `C3`. -/
def exOldC3 : Catalogue :=
  { current_items := some [exC3], legacy_items := some [] }

/-- Example catalogue: `C3` in legacy only. -/
def exNewC3Legacy : Catalogue :=
  { current_items := some [], legacy_items := some [exC3] }

/-- Example catalogue with no items at all. -/
def exEmptyCat : Catalogue :=
  { current_items := some [], legacy_items := some [] }

/-! ### C3, C4, C5, C6 -/

/-- C3: for every item_number whose presence tuple has old_current present,
new_current absent and new_legacy absent, `compare_catalogues` classifies it
as Removed, and the emitted record carries requires_review = true and the
old current item payload. -/
theorem c3_removed_flagged (old_cat new_cat : Catalogue) (k : String)
    (oc : Item)
    (h1 : ((dictGet k (_index_catalogue old_cat)).getD emptyEntry).current =
      some oc)
    (h2 : ((dictGet k (_index_catalogue new_cat)).getD emptyEntry).current =
      none)
    (h3 : ((dictGet k (_index_catalogue new_cat)).getD emptyEntry).legacy =
      none) :
    ({ item_number := k, item := oc, requires_review := true } : RemovedRec) ∈
      (compare_catalogues old_cat new_cat).removed :=
  mem_removed_of_presence old_cat new_cat k oc h1 h2 h3

/-- Witness for C3 at a concrete input (spec scenario `B2`). -/
theorem c3_removed_flagged_witness :
    (((dictGet "B2" (_index_catalogue exOldB2)).getD emptyEntry).current =
        some exB2) ∧
    (((dictGet "B2" (_index_catalogue exEmptyCat)).getD emptyEntry).current =
        none) ∧
    (((dictGet "B2" (_index_catalogue exEmptyCat)).getD emptyEntry).legacy =
        none) ∧
    ({ item_number := "B2", item := exB2, requires_review := true } :
        RemovedRec) ∈ (compare_catalogues exOldB2 exEmptyCat).removed :=
  ⟨by decide, by decide, by decide,
   c3_removed_flagged exOldB2 exEmptyCat "B2" exB2
     (by decide) (by decide) (by decide)⟩

/-- C4: for every item_number whose presence tuple has old_current present,
new_legacy present and new_current absent, `compare_catalogues` classifies
it as MovedToLegacy, and the emitted record carries both the old current
item and the new legacy item. -/
theorem c4_moved_to_legacy (old_cat new_cat : Catalogue) (k : String)
    (oc nl : Item)
    (h1 : ((dictGet k (_index_catalogue old_cat)).getD emptyEntry).current =
      some oc)
    (h2 : ((dictGet k (_index_catalogue new_cat)).getD emptyEntry).legacy =
      some nl)
    (h3 : ((dictGet k (_index_catalogue new_cat)).getD emptyEntry).current =
      none) :
    ({ item_number := k, old_item := oc, new_legacy_item := nl } :
        MovedRec) ∈ (compare_catalogues old_cat new_cat).moved_to_legacy := by
  rw [compare_catalogues_eq]
  exact List.mem_filterMap.mpr
    ⟨k,
     mem_all_item_numbers_left _ _ k (dictGet_ne_none_of_current _ k oc h1),
     by rw [classify_item_eq_moved _ _ k oc nl h1 h2 h3]; rfl⟩

/-- Witness for C4 at a concrete input (spec scenario `C3`). -/
theorem c4_moved_to_legacy_witness :
    (((dictGet "C3" (_index_catalogue exOldC3)).getD emptyEntry).current =
        some exC3) ∧
    (((dictGet "C3" (_index_catalogue exNewC3Legacy)).getD emptyEntry).legacy =
        some exC3) ∧
    (((dictGet "C3" (_index_catalogue exNewC3Legacy)).getD
        emptyEntry).current = none) ∧
    ({ item_number := "C3", old_item := exC3, new_legacy_item := exC3 } :
        MovedRec) ∈ (compare_catalogues exOldC3 exNewC3Legacy).moved_to_legacy :=
  ⟨by decide, by decide, by decide,
   c4_moved_to_legacy exOldC3 exNewC3Legacy "C3" exC3 exC3
     (by decide) (by decide) (by decide)⟩

/-- C5: for every item_number present in the current sets of both snapshots, the
item is classified Modified iff at least one compared field has differing
normalized values, and Unchanged otherwise; the third conjunct unfolds
"no change emitted" into "every compared field normalizes equally"
(normalization: None is the empty string, strings are stripped and
lowercased, other values stringified), so whitespace-only or case-only
textual differences yield Unchanged. -/
theorem c5_modified_iff_changes (old_cat new_cat : Catalogue) (k : String)
    (oc nc : Item)
    (h1 : ((dictGet k (_index_catalogue old_cat)).getD emptyEntry).current =
      some oc)
    (h2 : ((dictGet k (_index_catalogue new_cat)).getD emptyEntry).current =
      some nc) :
    ((∃ m ∈ (compare_catalogues old_cat new_cat).modified,
        m.item_number = k) ↔ _compute_field_changes oc nc ≠ []) ∧
    ((∃ u ∈ (compare_catalogues old_cat new_cat).unchanged,
        u.item_number = k) ↔ _compute_field_changes oc nc = []) ∧
    (_compute_field_changes oc nc = [] ↔
      ∀ f ∈ fields_to_compare,
        _normalize_for_comparison (oc.get f) =
          _normalize_for_comparison (nc.get f)) := by
  have hmem : k ∈ all_item_numbers (_index_catalogue old_cat)
      (_index_catalogue new_cat) :=
    mem_all_item_numbers_left _ _ k (dictGet_ne_none_of_current _ k oc h1)
  have hcl := classify_item_eq_mod_unch _ _ k oc nc h1 h2
  refine ⟨?_, ?_, ?_⟩
  · rw [compare_catalogues_eq]
    rw [exists_mem_filterMap_iff _ _ modifiedOf ModifiedRec.item_number
      (classify_item_itemNumber _ _) modifiedOf_pick k]
    rw [hcl]
    by_cases hch : _compute_field_changes oc nc = [] <;>
      simp [hch, hmem, modifiedOf]
  · rw [compare_catalogues_eq]
    rw [exists_mem_filterMap_iff _ _ unchangedOf UnchangedRec.item_number
      (classify_item_itemNumber _ _) unchangedOf_pick k]
    rw [hcl]
    by_cases hch : _compute_field_changes oc nc = [] <;>
      simp [hch, hmem, unchangedOf]
  · simp only [_compute_field_changes, List.filterMap_eq_nil_iff]
    constructor
    · intro h f hf
      have hthis := h f hf
      by_contra hne
      simp [hne] at hthis
    · intro h f hf
      simp [h f hf]

/-- Witness for C5 at a concrete input (spec scenario `E5`: whitespace and
case drift only, classified Unchanged). -/
theorem c5_modified_iff_changes_witness :
    (((dictGet "A1" (_index_catalogue exChairCat)).getD emptyEntry).current =
        some exChair) ∧
    (((dictGet "A1" (_index_catalogue exChairPaddedCat)).getD
        emptyEntry).current = some exChairPadded) ∧
    (_compute_field_changes exChair exChairPadded = []) ∧
    (∃ u ∈ (compare_catalogues exChairCat exChairPaddedCat).unchanged,
      u.item_number = "A1") :=
  ⟨by decide, by decide, by decide,
   ((c5_modified_iff_changes exChairCat exChairPaddedCat "A1" exChair
       exChairPadded (by decide) (by decide)).2.1).mpr (by decide)⟩

/-- C6: classification of items present in the current set of exactly one
snapshot and absent from the other snapshot entirely is symmetric in
direction:
only-new-current yields Added, only-old-current yields Removed. -/
theorem c6_directional_symmetry (old_cat new_cat : Catalogue) (k : String) :
    (∀ nc : Item,
      ((dictGet k (_index_catalogue new_cat)).getD emptyEntry).current =
          some nc →
      ((dictGet k (_index_catalogue old_cat)).getD emptyEntry).current =
          none →
      ((dictGet k (_index_catalogue old_cat)).getD emptyEntry).legacy =
          none →
      ({ item_number := k, item := nc } : AddedRec) ∈
        (compare_catalogues old_cat new_cat).added) ∧
    (∀ oc : Item,
      ((dictGet k (_index_catalogue old_cat)).getD emptyEntry).current =
          some oc →
      ((dictGet k (_index_catalogue new_cat)).getD emptyEntry).current =
          none →
      ((dictGet k (_index_catalogue new_cat)).getD emptyEntry).legacy =
          none →
      ({ item_number := k, item := oc, requires_review := true } :
          RemovedRec) ∈ (compare_catalogues old_cat new_cat).removed) :=
  ⟨fun nc h1 h2 h3 => mem_added_of_presence old_cat new_cat k nc h1 h2 h3,
   fun oc h1 h2 h3 => mem_removed_of_presence old_cat new_cat k oc h1 h2 h3⟩

/-- Witness for C6 at concrete inputs, in both directions. -/
theorem c6_directional_symmetry_witness :
    ({ item_number := "B2", item := exB2 } : AddedRec) ∈
      (compare_catalogues exEmptyCat exOldB2).added ∧
    ({ item_number := "B2", item := exB2, requires_review := true } :
      RemovedRec) ∈ (compare_catalogues exOldB2 exEmptyCat).removed :=
  ⟨(c6_directional_symmetry exEmptyCat exOldB2 "B2").1 exB2
      (by decide) (by decide) (by decide),
   (c6_directional_symmetry exOldB2 exEmptyCat "B2").2 exB2
      (by decide) (by decide) (by decide)⟩

/-! ### C7, C8, C9 -/

/-- C7: `_index_catalogue` maps each non-empty item_number to exactly one
presence tuple (no duplicate keys); the current slot holds the last item in
current_items order bearing that number (None if no such item), the legacy
slot the last item in legacy_items order (None if no such item), and the
key is absent exactly when neither exists — a number occurring in both
collections populates both slots of the same tuple. -/
theorem c7_index_characterization (cat : Catalogue) (k : String)
    (hk : k ≠ "") :
    ((_index_catalogue cat).map Prod.fst).Nodup ∧
    dictGet k (_index_catalogue cat) =
      (if (((cat.current_items.getD []).filter fun it =>
              it.item_number = k).getLast? = none ∧
           ((cat.legacy_items.getD []).filter fun it =>
              it.item_number = k).getLast? = none)
       then none
       else some
         { current := ((cat.current_items.getD []).filter fun it =>
               it.item_number = k).getLast?,
           legacy := ((cat.legacy_items.getD []).filter fun it =>
               it.item_number = k).getLast? }) :=
  ⟨keysNodup_index_catalogue cat, dictGet_index_catalogue cat k hk⟩

/-- Example: duplicate `A1` rows (first current version). -/
def exA1v1 : Item :=
  { item_number := "A1", fields := [("notes", Value.vstr "v1")] }

/-- Example: duplicate `A1` rows (second current version). -/
def exA1v2 : Item :=
  { item_number := "A1", fields := [("notes", Value.vstr "v2")] }

/-- Example: an `A1` legacy row. -/
def exA1leg : Item :=
  { item_number := "A1", fields := [("notes", Value.vstr "leg")] }

/-- Example catalogue with duplicate current rows and a same-numbered
legacy row. -/
def exDupCat : Catalogue :=
  { current_items := some [exA1v1, exA1v2], legacy_items := some [exA1leg] }

/-- Witness for C7 at a concrete input: the later duplicate current row
wins the current slot and the legacy row fills the legacy slot of the same
tuple. -/
theorem c7_index_characterization_witness :
    ((_index_catalogue exDupCat).map Prod.fst).Nodup ∧
    dictGet "A1" (_index_catalogue exDupCat) =
      some { current := some exA1v2, legacy := some exA1leg } :=
  ⟨(c7_index_characterization exDupCat "A1" (by decide)).1,
   ((c7_index_characterization exDupCat "A1" (by decide)).2).trans
     (by decide)⟩

theorem sum_filter_bounded (l : List String) (g : String → Nat)
    (hlt : ∀ k, g k < 7) :
    (l.filter fun k => g k = 0).length +
    (l.filter fun k => g k = 1).length +
    (l.filter fun k => g k = 2).length +
    (l.filter fun k => g k = 3).length +
    (l.filter fun k => g k = 4).length +
    (l.filter fun k => g k = 5).length +
    (l.filter fun k => g k = 6).length = l.length := by
  induction l with
  | nil => rfl
  | cons a t ih =>
    have h7 : g a = 0 ∨ g a = 1 ∨ g a = 2 ∨ g a = 3 ∨ g a = 4 ∨
        g a = 5 ∨ g a = 6 := by
      have := hlt a
      omega
    simp only [List.filter_cons]
    rcases h7 with h | h | h | h | h | h | h <;> simp [h] <;> omega

theorem sum_filter_tags (l : List String) (f : String → Classified) :
    (l.filter fun k => (f k).tag = 0).length +
    (l.filter fun k => (f k).tag = 1).length +
    (l.filter fun k => (f k).tag = 2).length +
    (l.filter fun k => (f k).tag = 3).length +
    (l.filter fun k => (f k).tag = 4).length +
    (l.filter fun k => (f k).tag = 5).length +
    (l.filter fun k => (f k).tag = 6).length = l.length := by
  have hg : ∀ k, (f k).tag < 7 := fun k => by
    cases f k <;> simp [Classified.tag]
  exact sum_filter_bounded l (fun k => (f k).tag) hg

/-- C8: `get_comparison_summary` returns each of the seven category counts
equal to the length of the corresponding result list, and
total_items_compared equal to the sum of those seven counts, which (by the
partition property) equals the number of distinct item_numbers across both
indices of both snapshots. -/
theorem c8_summary_counts (old_cat new_cat : Catalogue) :
    (get_comparison_summary (compare_catalogues old_cat new_cat)).added =
        (compare_catalogues old_cat new_cat).added.length ∧
    (get_comparison_summary (compare_catalogues old_cat new_cat)).removed =
        (compare_catalogues old_cat new_cat).removed.length ∧
    (get_comparison_summary
        (compare_catalogues old_cat new_cat)).moved_to_legacy =
        (compare_catalogues old_cat new_cat).moved_to_legacy.length ∧
    (get_comparison_summary
        (compare_catalogues old_cat new_cat)).legacy_removed =
        (compare_catalogues old_cat new_cat).legacy_removed.length ∧
    (get_comparison_summary (compare_catalogues old_cat new_cat)).modified =
        (compare_catalogues old_cat new_cat).modified.length ∧
    (get_comparison_summary (compare_catalogues old_cat new_cat)).unchanged =
        (compare_catalogues old_cat new_cat).unchanged.length ∧
    (get_comparison_summary (compare_catalogues old_cat new_cat)).anomalies =
        (compare_catalogues old_cat new_cat).anomalies.length ∧
    (get_comparison_summary
        (compare_catalogues old_cat new_cat)).total_items_compared =
      (compare_catalogues old_cat new_cat).added.length +
      (compare_catalogues old_cat new_cat).removed.length +
      (compare_catalogues old_cat new_cat).moved_to_legacy.length +
      (compare_catalogues old_cat new_cat).legacy_removed.length +
      (compare_catalogues old_cat new_cat).modified.length +
      (compare_catalogues old_cat new_cat).unchanged.length +
      (compare_catalogues old_cat new_cat).anomalies.length ∧
    (get_comparison_summary
        (compare_catalogues old_cat new_cat)).total_items_compared =
      ((_index_catalogue old_cat).map Prod.fst ++
        (_index_catalogue new_cat).map Prod.fst).toFinset.card := by
  refine ⟨rfl, rfl, rfl, rfl, rfl, rfl, rfl, rfl, ?_⟩
  have h0 : (compare_catalogues old_cat new_cat).added.length =
      ((all_item_numbers (_index_catalogue old_cat)
        (_index_catalogue new_cat)).filter
          fun k => (classify_item (_index_catalogue old_cat)
            (_index_catalogue new_cat) k).tag = 0).length := by
    rw [← added_item_numbers, List.length_map]
  have h1 : (compare_catalogues old_cat new_cat).removed.length =
      ((all_item_numbers (_index_catalogue old_cat)
        (_index_catalogue new_cat)).filter
          fun k => (classify_item (_index_catalogue old_cat)
            (_index_catalogue new_cat) k).tag = 1).length := by
    rw [← removed_item_numbers, List.length_map]
  have h2 : (compare_catalogues old_cat new_cat).moved_to_legacy.length =
      ((all_item_numbers (_index_catalogue old_cat)
        (_index_catalogue new_cat)).filter
          fun k => (classify_item (_index_catalogue old_cat)
            (_index_catalogue new_cat) k).tag = 2).length := by
    rw [← moved_item_numbers, List.length_map]
  have h3 : (compare_catalogues old_cat new_cat).legacy_removed.length =
      ((all_item_numbers (_index_catalogue old_cat)
        (_index_catalogue new_cat)).filter
          fun k => (classify_item (_index_catalogue old_cat)
            (_index_catalogue new_cat) k).tag = 3).length := by
    rw [← legacy_removed_item_numbers, List.length_map]
  have h4 : (compare_catalogues old_cat new_cat).modified.length =
      ((all_item_numbers (_index_catalogue old_cat)
        (_index_catalogue new_cat)).filter
          fun k => (classify_item (_index_catalogue old_cat)
            (_index_catalogue new_cat) k).tag = 4).length := by
    rw [← modified_item_numbers, List.length_map]
  have h5 : (compare_catalogues old_cat new_cat).unchanged.length =
      ((all_item_numbers (_index_catalogue old_cat)
        (_index_catalogue new_cat)).filter
          fun k => (classify_item (_index_catalogue old_cat)
            (_index_catalogue new_cat) k).tag = 5).length := by
    rw [← unchanged_item_numbers, List.length_map]
  have h6 : (compare_catalogues old_cat new_cat).anomalies.length =
      ((all_item_numbers (_index_catalogue old_cat)
        (_index_catalogue new_cat)).filter
          fun k => (classify_item (_index_catalogue old_cat)
            (_index_catalogue new_cat) k).tag = 6).length := by
    rw [← anomaly_item_numbers, List.length_map]
  show (compare_catalogues old_cat new_cat).added.length +
      (compare_catalogues old_cat new_cat).removed.length +
      (compare_catalogues old_cat new_cat).moved_to_legacy.length +
      (compare_catalogues old_cat new_cat).legacy_removed.length +
      (compare_catalogues old_cat new_cat).modified.length +
      (compare_catalogues old_cat new_cat).unchanged.length +
      (compare_catalogues old_cat new_cat).anomalies.length = _
  rw [h0, h1, h2, h3, h4, h5, h6, sum_filter_tags, List.card_toFinset]
  rfl

/-- C9: `compare_catalogues` is a total function of any two snapshot values,
and a snapshot missing a top-level collection (modelled by `none`) is
treated exactly as if that collection were empty. -/
theorem c9_missing_collections (cur leg : Option (List Item))
    (other : Catalogue) :
    (compare_catalogues { current_items := none, legacy_items := leg }
        other =
      compare_catalogues { current_items := some [], legacy_items := leg }
        other) ∧
    (compare_catalogues { current_items := cur, legacy_items := none }
        other =
      compare_catalogues { current_items := cur, legacy_items := some [] }
        other) ∧
    (compare_catalogues other
        { current_items := none, legacy_items := leg } =
      compare_catalogues other
        { current_items := some [], legacy_items := leg }) ∧
    (compare_catalogues other
        { current_items := cur, legacy_items := none } =
      compare_catalogues other
        { current_items := cur, legacy_items := some [] }) :=
  ⟨rfl, rfl, rfl, rfl⟩

/-! ### Self-comparison (C2) -/

theorem compute_field_changes_self (it : Item) :
    _compute_field_changes it it = [] := by
  simp [_compute_field_changes]

/-- Self-comparison dichotomy: an indexed entry with a current item is
Unchanged (tag 5); one without is an Anomaly (tag 6) — rule 4 cannot fire
because the legacy item is present on both sides. -/
theorem classify_self_tag (oi : List (String × Entry)) (k : String) :
    (((dictGet k oi).getD emptyEntry).current = none ∧
      (classify_item oi oi k).tag = 6) ∨
    ((∃ c, ((dictGet k oi).getD emptyEntry).current = some c) ∧
      (classify_item oi oi k).tag = 5) := by
  cases hc : ((dictGet k oi).getD emptyEntry).current
  · left
    refine ⟨rfl, ?_⟩
    cases hl : ((dictGet k oi).getD emptyEntry).legacy <;>
      simp [classify_item, hc, hl, Classified.tag]
  · right
    rename_i c
    refine ⟨⟨c, rfl⟩, ?_⟩
    rw [classify_item_eq_mod_unch oi oi k c c hc hc]
    simp [compute_field_changes_self, Classified.tag]

/-- The entry read by the classifier equals the last-wins slots, whether or
not the key is present. -/
theorem entry_slots_eq (cat : Catalogue) (k : String) (hk : k ≠ "") :
    ((dictGet k (_index_catalogue cat)).getD emptyEntry).current =
      ((cat.current_items.getD []).filter fun it =>
        it.item_number = k).getLast? ∧
    ((dictGet k (_index_catalogue cat)).getD emptyEntry).legacy =
      ((cat.legacy_items.getD []).filter fun it =>
        it.item_number = k).getLast? := by
  rw [dictGet_index_catalogue cat k hk]
  split <;> rename_i h
  · obtain ⟨h1, h2⟩ := h
    simp [emptyEntry, h1, h2]
  · simp

theorem getLast_filter_ne_none_iff (l : List Item) (k : String) :
    ((l.filter fun it => it.item_number = k).getLast? ≠ none) ↔
      ∃ it ∈ l, it.item_number = k := by
  rw [ne_eq, List.getLast?_eq_none_iff]
  constructor
  · intro h
    obtain ⟨it, hit⟩ := List.exists_mem_of_ne_nil _ h
    rw [List.mem_filter] at hit
    exact ⟨it, hit.1, by simpa using hit.2⟩
  · rintro ⟨it, hmem, hit⟩ hnil
    have hin : it ∈ l.filter fun it => it.item_number = k :=
      List.mem_filter.mpr ⟨hmem, by simp [hit]⟩
    rw [hnil] at hin
    exact absurd hin (List.not_mem_nil it)

theorem mem_all_self (oi : List (String × Entry)) (k : String) :
    k ∈ all_item_numbers oi oi ↔ k ∈ oi.map Prod.fst := by
  unfold all_item_numbers
  rw [List.mem_dedup, List.mem_append, or_self]

/-- The truthy item numbers of the current collection, in order. -/
def current_item_numbers (cat : Catalogue) : List String :=
  ((cat.current_items.getD []).map Item.item_number).filter fun s => s ≠ ""

/-- The truthy item numbers of the legacy collection, in order. -/
def legacy_item_numbers (cat : Catalogue) : List String :=
  ((cat.legacy_items.getD []).map Item.item_number).filter fun s => s ≠ ""

theorem mem_current_item_numbers (cat : Catalogue) (k : String) :
    k ∈ current_item_numbers cat ↔
      k ≠ "" ∧ ∃ it ∈ cat.current_items.getD [], it.item_number = k := by
  unfold current_item_numbers
  simp only [List.mem_filter, List.mem_map, decide_eq_true_eq]
  constructor
  · rintro ⟨⟨it, hmem, hit⟩, hne⟩
    exact ⟨hne, it, hmem, hit⟩
  · rintro ⟨hne, it, hmem, hit⟩
    exact ⟨⟨it, hmem, hit⟩, hne⟩

theorem mem_legacy_item_numbers (cat : Catalogue) (k : String) :
    k ∈ legacy_item_numbers cat ↔
      k ≠ "" ∧ ∃ it ∈ cat.legacy_items.getD [], it.item_number = k := by
  unfold legacy_item_numbers
  simp only [List.mem_filter, List.mem_map, decide_eq_true_eq]
  constructor
  · rintro ⟨⟨it, hmem, hit⟩, hne⟩
    exact ⟨hne, it, hmem, hit⟩
  · rintro ⟨hne, it, hmem, hit⟩
    exact ⟨⟨it, hmem, hit⟩, hne⟩

theorem self_unchanged_mem_iff (cat : Catalogue) (k : String) :
    k ∈ (all_item_numbers (_index_catalogue cat)
        (_index_catalogue cat)).filter
      (fun x => (classify_item (_index_catalogue cat)
        (_index_catalogue cat) x).tag = 5) ↔
      k ∈ (current_item_numbers cat).dedup := by
  rw [List.mem_filter, List.mem_dedup, mem_current_item_numbers,
    decide_eq_true_eq, mem_all_self]
  constructor
  · rintro ⟨hkeys, htag⟩
    have hkne : k ≠ "" :=
      ((mem_keys_index_catalogue cat k).mp hkeys).1
    rcases classify_self_tag (_index_catalogue cat) k with
      ⟨_, ht⟩ | ⟨⟨c, hc⟩, _⟩
    · rw [ht] at htag
      exact absurd htag (by simp)
    · have hcur := (entry_slots_eq cat k hkne).1
      rw [hc] at hcur
      refine ⟨hkne, (getLast_filter_ne_none_iff _ _).mp ?_⟩
      rw [← hcur]
      simp
  · rintro ⟨hkne, it, hmem, hit⟩
    have hlast : ((cat.current_items.getD []).filter fun x =>
        x.item_number = k).getLast? ≠ none :=
      (getLast_filter_ne_none_iff _ _).mpr ⟨it, hmem, hit⟩
    have hcur := (entry_slots_eq cat k hkne).1
    have hkeys : k ∈ (_index_catalogue cat).map Prod.fst :=
      (mem_keys_index_catalogue cat k).mpr ⟨hkne, Or.inl ⟨it, hmem, hit⟩⟩
    rcases classify_self_tag (_index_catalogue cat) k with
      ⟨hnone, _⟩ | ⟨_, ht⟩
    · rw [hnone] at hcur
      exact absurd hcur.symm hlast
    · exact ⟨hkeys, ht⟩

theorem self_anomaly_mem_iff (cat : Catalogue) (k : String) :
    k ∈ (all_item_numbers (_index_catalogue cat)
        (_index_catalogue cat)).filter
      (fun x => (classify_item (_index_catalogue cat)
        (_index_catalogue cat) x).tag = 6) ↔
      k ∈ ((legacy_item_numbers cat).filter fun x =>
        x ∉ current_item_numbers cat).dedup := by
  rw [List.mem_filter, List.mem_dedup, List.mem_filter,
    mem_legacy_item_numbers, decide_eq_true_eq, decide_eq_true_eq,
    mem_all_self]
  constructor
  · rintro ⟨hkeys, htag⟩
    obtain ⟨hkne, hor⟩ := (mem_keys_index_catalogue cat k).mp hkeys
    rcases classify_self_tag (_index_catalogue cat) k with
      ⟨hnone, _⟩ | ⟨⟨c, hc⟩, ht⟩
    · have hcur := (entry_slots_eq cat k hkne).1
      rw [hnone] at hcur
      have hnocur : ¬ ∃ it ∈ cat.current_items.getD [],
          it.item_number = k := by
        intro hex
        exact (getLast_filter_ne_none_iff _ _).mpr hex hcur.symm
      have hleg : ∃ it ∈ cat.legacy_items.getD [], it.item_number = k := by
        rcases hor with hcurex | hlegex
        · exact absurd hcurex hnocur
        · exact hlegex
      refine ⟨⟨hkne, hleg⟩, ?_⟩
      rw [mem_current_item_numbers]
      rintro ⟨_, hex⟩
      exact hnocur hex
    · rw [ht] at htag
      exact absurd htag (by simp)
  · rintro ⟨⟨hkne, it, hmem, hit⟩, hnotcur⟩
    have hkeys : k ∈ (_index_catalogue cat).map Prod.fst :=
      (mem_keys_index_catalogue cat k).mpr ⟨hkne, Or.inr ⟨it, hmem, hit⟩⟩
    have hnocur : ¬ ∃ x ∈ cat.current_items.getD [],
        x.item_number = k := by
      intro hex
      exact hnotcur ((mem_current_item_numbers cat k).mpr ⟨hkne, hex⟩)
    have hlastnone : ((cat.current_items.getD []).filter fun x =>
        x.item_number = k).getLast? = none := by
      by_contra hne
      exact hnocur ((getLast_filter_ne_none_iff _ _).mp hne)
    have hcur := (entry_slots_eq cat k hkne).1
    rw [hlastnone] at hcur
    rcases classify_self_tag (_index_catalogue cat) k with
      ⟨_, ht⟩ | ⟨⟨c, hc⟩, _⟩
    · exact ⟨hkeys, ht⟩
    · rw [hc] at hcur
      exact absurd hcur (by simp)

/-- C2 counterexample: comparing a snapshot that has a legacy-only item
against itself does not yield zero Anomaly records — the persisting legacy
item fails rule 4 (`not new_legacy`) and falls into the anomaly catch-all. -/
theorem c2_self_comparison_counterexample :
    (compare_catalogues exNewC3Legacy exNewC3Legacy).anomalies.length = 1 ∧
    ¬ (compare_catalogues exNewC3Legacy exNewC3Legacy).anomalies.length
        = 0 := by
  constructor <;> decide

/-- C2 (amended): comparing a snapshot against itself yields zero Added,
Removed, MovedToLegacy, LegacyRemoved and Modified records; the Unchanged
count equals the number of distinct non-empty current item numbers; and the
Anomaly count equals the number of distinct non-empty item numbers present
in legacy but not in current (zero Anomaly holds only when every legacy
item number also occurs in current). -/
theorem c2_self_comparison_amended (cat : Catalogue) :
    (compare_catalogues cat cat).added.length = 0 ∧
    (compare_catalogues cat cat).removed.length = 0 ∧
    (compare_catalogues cat cat).moved_to_legacy.length = 0 ∧
    (compare_catalogues cat cat).legacy_removed.length = 0 ∧
    (compare_catalogues cat cat).modified.length = 0 ∧
    (compare_catalogues cat cat).unchanged.length =
      (current_item_numbers cat).dedup.length ∧
    (compare_catalogues cat cat).anomalies.length =
      ((legacy_item_numbers cat).filter fun k =>
        k ∉ current_item_numbers cat).dedup.length := by
  have hallnodup : (all_item_numbers (_index_catalogue cat)
      (_index_catalogue cat)).Nodup := List.nodup_dedup _
  have hzero : ∀ i : Nat, i ≠ 5 → i ≠ 6 →
      ((all_item_numbers (_index_catalogue cat)
        (_index_catalogue cat)).filter
          fun x => (classify_item (_index_catalogue cat)
            (_index_catalogue cat) x).tag = i) = [] := by
    intro i h5 h6
    rw [List.filter_eq_nil_iff]
    intro k _
    rcases classify_self_tag (_index_catalogue cat) k with
      ⟨_, ht⟩ | ⟨_, ht⟩ <;>
      simp only [decide_eq_true_eq, ht] <;> omega
  refine ⟨?_, ?_, ?_, ?_, ?_, ?_, ?_⟩
  · rw [← List.length_map (compare_catalogues cat cat).added
      AddedRec.item_number, added_item_numbers,
      hzero 0 (by omega) (by omega)]
    rfl
  · rw [← List.length_map (compare_catalogues cat cat).removed
      RemovedRec.item_number, removed_item_numbers,
      hzero 1 (by omega) (by omega)]
    rfl
  · rw [← List.length_map (compare_catalogues cat cat).moved_to_legacy
      MovedRec.item_number, moved_item_numbers,
      hzero 2 (by omega) (by omega)]
    rfl
  · rw [← List.length_map (compare_catalogues cat cat).legacy_removed
      LegacyRemovedRec.item_number, legacy_removed_item_numbers,
      hzero 3 (by omega) (by omega)]
    rfl
  · rw [← List.length_map (compare_catalogues cat cat).modified
      ModifiedRec.item_number, modified_item_numbers,
      hzero 4 (by omega) (by omega)]
    rfl
  · rw [← List.length_map (compare_catalogues cat cat).unchanged
      UnchangedRec.item_number, unchanged_item_numbers]
    exact ((List.perm_ext_iff_of_nodup (hallnodup.filter _)
      (List.nodup_dedup _)).mpr (self_unchanged_mem_iff cat)).length_eq
  · rw [← List.length_map (compare_catalogues cat cat).anomalies
      AnomalyRec.item_number, anomaly_item_numbers]
    exact ((List.perm_ext_iff_of_nodup (hallnodup.filter _)
      (List.nodup_dedup _)).mpr (self_anomaly_mem_iff cat)).length_eq

/-! ### C10 -/

/-- C10: item numbers are matched across snapshots by exact raw string
equality — normalization is never applied to identifiers — so two items
whose identifiers are distinct non-empty strings (e.g. differing only in
whitespace or case) are classified as one Added plus one Removed rather
than one Modified; and an item whose item_number is falsy (the empty
string, which also models None) appears in no output bucket. -/
theorem c10_raw_identifier_matching :
    (∀ (a b : String) (it1 it2 : Item),
      it1.item_number = a → it2.item_number = b →
      a ≠ "" → b ≠ "" → a ≠ b →
      compare_catalogues
          { current_items := some [it1], legacy_items := some [] }
          { current_items := some [it2], legacy_items := some [] } =
        { added := [{ item_number := b, item := it2 }],
          removed :=
            [{ item_number := a, item := it1, requires_review := true }],
          moved_to_legacy := [], legacy_removed := [], modified := [],
          unchanged := [], anomalies := [] }) ∧
    (∀ (old_cat new_cat : Catalogue) (l : List String),
      l ∈ bucket_item_numbers (compare_catalogues old_cat new_cat) →
      "" ∉ l) := by
  constructor
  · intro a b it1 it2 ha hb hane hbne hab
    have hoi : _index_catalogue
        { current_items := some [it1], legacy_items := some [] } =
        [(a, { current := some it1, legacy := none })] := by
      simp [_index_catalogue, indexPass, updateIndex, dictGet, ha, hane,
        emptyEntry]
    have hni : _index_catalogue
        { current_items := some [it2], legacy_items := some [] } =
        [(b, { current := some it2, legacy := none })] := by
      simp [_index_catalogue, indexPass, updateIndex, dictGet, hb, hbne,
        emptyEntry]
    have hall : all_item_numbers
        [(a, ({ current := some it1, legacy := none } : Entry))]
        [(b, ({ current := some it2, legacy := none } : Entry))] =
        [a, b] := by
      simp [all_item_numbers, List.dedup_cons_of_not_mem, hab]
    simp only [compare_catalogues, hoi, hni, hall]
    have hca : classify_item
        [(a, ({ current := some it1, legacy := none } : Entry))]
        [(b, ({ current := some it2, legacy := none } : Entry))] a =
        Classified.removed
          { item_number := a, item := it1, requires_review := true } := by
      simp [classify_item, dictGet, hab, Ne.symm hab, emptyEntry]
    have hcb : classify_item
        [(a, ({ current := some it1, legacy := none } : Entry))]
        [(b, ({ current := some it2, legacy := none } : Entry))] b =
        Classified.added { item_number := b, item := it2 } := by
      simp [classify_item, dictGet, hab, Ne.symm hab, emptyEntry]
    simp [List.foldl_cons, hca, hcb, appendClassified, emptyResults]
  · intro old_cat new_cat l hl
    rw [bucket_item_numbers_eq] at hl
    obtain ⟨i, _, rfl⟩ := List.mem_map.mp hl
    intro hmem
    have h1 := (List.mem_filter.mp hmem).1
    unfold all_item_numbers at h1
    rw [List.mem_dedup, List.mem_append] at h1
    rcases h1 with h | h <;>
      exact ((mem_keys_index_catalogue _ _).mp h).1 rfl

/-- Example: the `A1` item re-exported with a case/whitespace-drifted
identifier. -/
def exChairCased : Item :=
  { item_number := " a1 ", fields := [("support_name", Value.vstr "Chair")] }

/-- Witness for C10 at a concrete input: identifiers "A1" and " a1 " are
distinct keys, giving one Added plus one Removed and no Modified. -/
theorem c10_raw_identifier_matching_witness :
    compare_catalogues
        { current_items := some [exChair], legacy_items := some [] }
        { current_items := some [exChairCased], legacy_items := some [] } =
      { added := [{ item_number := " a1 ", item := exChairCased }],
        removed :=
          [{ item_number := "A1", item := exChair,
             requires_review := true }],
        moved_to_legacy := [], legacy_removed := [], modified := [],
        unchanged := [], anomalies := [] } :=
  c10_raw_identifier_matching.1 "A1" " a1 " exChair exChairCased
    rfl rfl (by decide) (by decide) (by decide)

end VersionDiff
